import Mathlib

/-!
Verification development for the mag-ecs core (TypeScript ECS library).

The embedding models the JavaScript runtime behaviour of the data structures
in `src/util/sparse-set.ts`, the fixed-width pooled bitset, the
query-definition builder and predicate, and the two `World` variants.
JavaScript arrays are modelled as `List (Option α)`: a `none` element is a
hole (`undefined`), and reads past the end of the list also give `none`,
matching out-of-range index reads.
-/

set_option maxRecDepth 8192

/-- Model of a JavaScript array read `a[i]`: holes and out-of-range reads give
`undefined`, modelled as `none`. -/
def jsRead {α : Type} (l : List (Option α)) (i : Nat) : Option α :=
  l.getD i none

/-- Model of a JavaScript array write `a[i] = v`: when `i` is past the end the
array is extended with holes (`undefined`) up to `i`. -/
def jsWrite {α : Type} (l : List (Option α)) (i : Nat) (v : Option α) : List (Option α) :=
  if i < l.length then l.set i v
  else l ++ List.replicate (i - l.length) none ++ [v]

/--
The `SparseSet<T>` class of `src/src/util/sparse-set.ts`, with component
values modelled as `Nat`.  All three backing arrays keep the JavaScript
array semantics of `jsRead`/`jsWrite`.  `sparse` maps an external index to a
dense slot; `denseValue`/`denseIndex` are the packed arrays.
-/
structure SparseSet where
  sparse : List (Option Nat)
  denseValue : List (Option Nat)
  denseIndex : List (Option Nat)
  deriving Repr, DecidableEq

/-- The `SparseSet` constructor: all three arrays start empty. -/
def SparseSet.empty : SparseSet := ⟨[], [], []⟩

/-- Translation of `SparseSet.add(index, value)`: refuses (returning `false`)
when `sparse[index]` is defined, otherwise pushes onto both dense arrays and
records `sparse[index] = denseValue.length - 1`. -/
def SparseSet.add (s : SparseSet) (index : Nat) (value : Nat) : Bool × SparseSet :=
  if (jsRead s.sparse index).isSome then (false, s)
  else
    let dv := s.denseValue ++ [some value]
    let di := s.denseIndex ++ [some index]
    (true, { sparse := jsWrite s.sparse index (some (dv.length - 1)),
             denseValue := dv, denseIndex := di })

/-- Translation of `SparseSet.set(index, value)`: silently returns when
`sparse[index]` is `undefined`, otherwise overwrites the dense slot. -/
def SparseSet.set (s : SparseSet) (index : Nat) (value : Nat) : SparseSet :=
  match jsRead s.sparse index with
  | none => s
  | some d => { s with denseValue := jsWrite s.denseValue d (some value) }

/-- Translation of `SparseSet.remove(index)`.  Mirrors the source exactly:
the last dense entry is copied into the freed slot, the sparse mapping of the
moved entry is corrected, and the dense arrays are popped.  The source never
clears `sparse[index]` itself.  `denseValue[length - 1]` on an empty array is
an `undefined` read (JavaScript index `-1`), which `jsRead _ 0` on the empty
list also yields.  When the moved `denseIndex` entry is `undefined`, the
write `sparse[undefined] = d` targets a non-numeric property, leaving the
numeric contents of `sparse` unchanged. -/
def SparseSet.remove (s : SparseSet) (index : Nat) : Option Nat × SparseSet :=
  match jsRead s.sparse index with
  | none => (none, s)
  | some d =>
    let removedValue := jsRead s.denseValue d
    let lastV := jsRead s.denseValue (s.denseValue.length - 1)
    let lastI := jsRead s.denseIndex (s.denseIndex.length - 1)
    let dv := jsWrite s.denseValue d lastV
    let di := jsWrite s.denseIndex d lastI
    let sp :=
      match jsRead di d with
      | some j => jsWrite s.sparse j (some d)
      | none => s.sparse
    (removedValue, { sparse := sp, denseValue := dv.dropLast, denseIndex := di.dropLast })

/-- Translation of `SparseSet.get(index)`: `undefined` when `sparse[index]`
is `undefined`, otherwise the dense read `denseValue[d]` (itself possibly an
`undefined` read). -/
def SparseSet.get (s : SparseSet) (index : Nat) : Option Nat :=
  match jsRead s.sparse index with
  | none => none
  | some d => jsRead s.denseValue d

/-- Translation of `SparseSet.has(index)`: `sparse[index] !== undefined`. -/
def SparseSet.has (s : SparseSet) (index : Nat) : Bool :=
  (jsRead s.sparse index).isSome

/-- Translation of `Component.set(index, component)` from
`src/src/core/component.ts`, restricted to its effect on the component
type's backing store: it delegates to `SparseSet.add` and discards the
boolean result. -/
def Component.set (s : SparseSet) (index : Nat) (value : Nat) : SparseSet :=
  (s.add index value).2

/-!
Bit-counting.  The source counts set bits with Brian Kernighan's loop
(`countSetBitsInInt`); over natural numbers this computes the binary digit
sum, which the following function expresses directly.
-/

/-- Fuel-carrying helper for `popcount`; the fuel argument makes the
recursion structural so that concrete values reduce in the kernel. -/
def popcountAux : Nat → Nat → Nat
  | _, 0 => 0
  | 0, _ + 1 => 0
  | f + 1, m + 1 => (m + 1) % 2 + popcountAux f ((m + 1) / 2)

/-- Population count of a natural number, the number of set bits.  This is
the value computed by `countSetBitsInInt` summed over the bytes of a
bitset. -/
def popcount (n : Nat) : Nat := popcountAux n n

/-!
Bitset operations used by the query engine.  The pooled `Bitset` of the
source stores each instance in a 4-byte slice of a shared buffer (32 flags);
a slice's contents are modelled here as the natural number below `2 ^ 32`
they encode.  The byte-wise loops of `and`, `equals`, `overlaps` coincide
with the corresponding whole-value operations.  A rented bitset is cleared
before use, so the static combinators start from zero contents.
-/

/-- Translation of the static `Bitset.and(...bitsets)` combinator: a rented
(cleared) bitset receives a copy of the first argument and is then and-ed
with every argument in order, the first one included. -/
def bitsetAndMany : List Nat → Nat
  | [] => 0
  | b :: bs => (b :: bs).foldl (fun acc x => acc &&& x) b

/-- Translation of `Bitset.overlaps(other)`: some byte pair has a nonzero
bitwise and, which holds exactly when the whole values do. -/
def bitsetOverlaps (a b : Nat) : Bool :=
  (a &&& b) != 0

/-- Translation of `Bitset.equals(other)`: byte-for-byte comparison of the
two slices, i.e. equality of the encoded values. -/
def bitsetEquals (a b : Nat) : Bool :=
  a == b

/-- Translation of `Bitset.isSubsetOf(other)`: the and of the two bitsets is
compared against the receiver. -/
def bitsetIsSubsetOf (a b : Nat) : Bool :=
  bitsetEquals (bitsetAndMany [a, b]) a

/-- Translation of `Bitset.isSupersetOf(other)`: delegates to
`isSubsetOf` with the arguments swapped. -/
def bitsetIsSupersetOf (a b : Nat) : Bool :=
  bitsetIsSubsetOf b a

/-- Translation of `Component.bitsetFromTypes(...types)`: a rented (cleared)
bitset receives `set(id, true)` for the id of every listed type.  Component
types are identified here by their numeric ids. -/
def bitsetFromTypes (ids : List Nat) : Nat :=
  ids.foldl (fun acc id => acc ||| 2 ^ id) 0

/--
The `QueryDefinition` class of `src/src/core/query-definition.ts` (the
`Query` class of the later variant is identical).  The five filter bitsets
are stored as their encoded values; `paramTypes` keeps the ordered component
type ids handed to `withAll`/`withOnly`.  The source guards test
`setFlagCount !== 0` on a stored filter; for a filter built by
`bitsetFromTypes` the maintained counter is nonzero exactly when the
contents are nonzero (every `set(id, true)` call adds at least one), so the
guards are rendered as nonzero tests on the contents.
-/
structure QueryDefinition where
  paramTypes : List Nat
  _withAll : Nat
  _withNone : Nat
  _withOne : Nat
  _withSome : Nat
  _withOnly : Nat
  deriving Repr, DecidableEq

/-- The `QueryDefinition` constructor: empty parameter list, all five filter
bitsets fresh and empty. -/
def QueryDefinition.new : QueryDefinition :=
  ⟨[], 0, 0, 0, 0, 0⟩

/-- Translation of `QueryDefinition.withAll(...types)`: throws when a
`withOnly` filter is already present, otherwise records the parameter types
and the all-filter. -/
def QueryDefinition.withAll (q : QueryDefinition) (types : List Nat) :
    Except String QueryDefinition :=
  if q._withOnly ≠ 0 then
    Except.error "withAll filter applied on a query definition with a preexisting withOnly filter"
  else
    Except.ok { q with paramTypes := types, _withAll := bitsetFromTypes types }

/-- Translation of `QueryDefinition.withNone(...types)`: throws when a
`withOnly` filter is already present. -/
def QueryDefinition.withNone (q : QueryDefinition) (types : List Nat) :
    Except String QueryDefinition :=
  if q._withOnly ≠ 0 then
    Except.error "withNone filter applied on a query definition with a preexisting withOnly filter"
  else
    Except.ok { q with _withNone := bitsetFromTypes types }

/-- Translation of `QueryDefinition.withOne(...types)`: throws when a
`withOnly` filter is already present. -/
def QueryDefinition.withOne (q : QueryDefinition) (types : List Nat) :
    Except String QueryDefinition :=
  if q._withOnly ≠ 0 then
    Except.error "withOne filter applied on a query definition with a preexisting withOnly filter"
  else
    Except.ok { q with _withOne := bitsetFromTypes types }

/-- Translation of `QueryDefinition.withSome(...types)`: the source method
has no guard at all and always succeeds. -/
def QueryDefinition.withSome (q : QueryDefinition) (types : List Nat) :
    Except String QueryDefinition :=
  Except.ok { q with _withSome := bitsetFromTypes types }

/-- Translation of `QueryDefinition.withOnly(...types)`: throws only when a
`withAll` or `withNone` filter is already present (the source guard does not
inspect the one- or some-filters). -/
def QueryDefinition.withOnly (q : QueryDefinition) (types : List Nat) :
    Except String QueryDefinition :=
  if q._withAll ≠ 0 ∨ q._withNone ≠ 0 then
    Except.error "withOnly filter applied on a query definition with a preexisting withAll or withNone filter"
  else
    Except.ok { q with paramTypes := types, _withOnly := bitsetFromTypes types }

/-- Translation of `QueryDefinition.satisfiedBy(signature)`, clause for
clause: the only-check, the none-check, the one-check, the some-check and
the final all-check.  The `setFlagCount` of each and-result is recomputed by
population count inside the instance `and`, hence `popcount` below. -/
def QueryDefinition.satisfiedBy (q : QueryDefinition) (signature : Nat) : Bool :=
  if q._withOnly ≠ 0 then bitsetEquals signature q._withOnly
  else if bitsetOverlaps q._withNone signature then false
  else if q._withOne ≠ 0 ∧ popcount (bitsetAndMany [q._withOne, signature]) ≠ 1 then false
  else if q._withSome ≠ 0 ∧ popcount (bitsetAndMany [q._withSome, signature]) = 0 then false
  else bitsetIsSupersetOf signature q._withAll

/-- The specification predicate for `satisfiedBy`, written from the spec
text: exact equality when the only-filter is non-empty; otherwise no shared
bit with the none-filter, exactly one set bit in `one AND signature` when
the one-filter is non-empty, at least one set bit in `some AND signature`
when the some-filter is non-empty, and the signature a superset of the
all-filter. -/
def querySpecSatisfied (q : QueryDefinition) (signature : Nat) : Prop :=
  if q._withOnly ≠ 0 then
    signature = q._withOnly
  else
    (¬∃ i, q._withNone.testBit i = true ∧ signature.testBit i = true) ∧
    (q._withOne ≠ 0 → popcount (q._withOne &&& signature) = 1) ∧
    (q._withSome ≠ 0 → popcount (q._withSome &&& signature) ≠ 0) ∧
    (∀ i, q._withAll.testBit i = true → signature.testBit i = true)

/-- The spec scenario for swap-and-pop removal: indices 3, 7, 1 added in
that order with values 30, 70, 10, then index 7 removed. -/
def sparseAfterSwapRemove : SparseSet :=
  ((((SparseSet.empty.add 3 30).2.add 7 70).2.add 1 10).2.remove 7).2

/-- A store holding value 1 at index 0, the first attach of claim C7. -/
def storeWithFirstAttach : SparseSet := (SparseSet.empty.add 0 1).2

/-!
The pooled `Bitset` class of the later variant stores every instance in a
4-byte slice of one shared `Uint8Array` (`_memArray`): the static init block
fixes 32 flags per instance, so `_int8Count = 4` and instance `b` owns bytes
`b.memIndex * 4 .. b.memIndex * 4 + 3`.  Out-of-range typed-array reads give
`undefined`, which the bitwise ops coerce to 0; out-of-range typed-array
writes are discarded.  `Bitset.null` occupies slot 0 and fresh instances take
slots 1, 2, ... in creation order.
-/

/-- Read of `Bitset._memArray[i]`: an out-of-range read coerces to 0 inside
the bitwise expressions of the source. -/
def byteRead (mem : List Nat) (i : Nat) : Nat :=
  mem.getD i 0

/-- Write of `Bitset._memArray[i] = v`: out-of-range typed-array writes are
silently discarded. -/
def byteWrite (mem : List Nat) (i v : Nat) : List Nat :=
  if i < mem.length then mem.set i v else mem

/-- A `Bitset` instance: its slot in the shared buffer (`_memIndex`) and its
maintained `_setFlagCount` counter. -/
structure BitsetHandle where
  memIndex : Nat
  setFlagCount : Nat
  deriving Repr, DecidableEq

/-- The number of bytes owned by one instance (`Bitset._int8Count` for the
static flag count of 32). -/
def Bitset.int8Count : Nat := 4

/-- The shared buffer right after `memReset`: `new ArrayBuffer(1024)` is
zero-filled. -/
def bitsetMemInitial : List Nat := List.replicate 1024 0

/-- Translation of `Bitset.set(index, value)`.  The byte index comes from
`getBitIntIndex`; `wasSet` reads the old bit.  The counter update comes from
the source line `this._setFlagCount += (+value) - (-wasSet)`: the unary
minus turns `true` into `-1`, so the applied delta is `value + wasSet`.  The
byte is then rewritten as `(byte & ~mask) | (mask * value)`, here expressed
on the byte's 8 bits. -/
def Bitset.set (mem : List Nat) (b : BitsetHandle) (index : Nat) (value : Bool) :
    List Nat × BitsetHandle :=
  let intIndex := b.memIndex * Bitset.int8Count + index / 8
  let bitOffset := index % 8
  let mask := 2 ^ bitOffset
  let byte := byteRead mem intIndex
  let wasSet := byte &&& mask != 0
  let cnt := b.setFlagCount + (if value then 1 else 0) + (if wasSet then 1 else 0)
  let newByte := (byte &&& (255 ^^^ mask)) ||| (if value then mask else 0)
  (byteWrite mem intIndex newByte, { b with setFlagCount := cnt })

/-- Translation of `Bitset.get(index)`: reads the byte at
`getBitIntIndex(index)` — with no bound on `index`, so the byte may belong
to a neighbouring instance — and tests the mask. -/
def Bitset.get (mem : List Nat) (b : BitsetHandle) (index : Nat) : Bool :=
  byteRead mem (b.memIndex * Bitset.int8Count + index / 8) &&& 2 ^ (index % 8) != 0

/-- The number of bits actually set inside an instance's own 4-byte slice:
the value `countSetBitsInInt` summed over the slice recomputes. -/
def Bitset.sliceBitCount (mem : List Nat) (b : BitsetHandle) : Nat :=
  popcount (byteRead mem (b.memIndex * Bitset.int8Count)) +
  popcount (byteRead mem (b.memIndex * Bitset.int8Count + 1)) +
  popcount (byteRead mem (b.memIndex * Bitset.int8Count + 2)) +
  popcount (byteRead mem (b.memIndex * Bitset.int8Count + 3))

/-- Setting then clearing bit 0 on a fresh instance in slot 1. -/
def bitsetSetThenClear : List Nat × BitsetHandle :=
  let r1 := Bitset.set bitsetMemInitial ⟨1, 0⟩ 0 true
  Bitset.set r1.1 r1.2 0 false

/-- The shared buffer after a second instance (slot 2) sets its bit 0: byte
8 of the shared array becomes 1. -/
def bitsetMemWithNeighbor : List Nat :=
  (Bitset.set bitsetMemInitial ⟨2, 0⟩ 0 true).1

/-!
The `World` class of `src/src/core/world.ts`.  Entity signatures are bitset
contents (`Nat`), query instances are identified by a numeric key (the
source keys its `Map`/`Set` on object identity of the `Query`), and the
query-definition environment `env` maps that key to the query's filters.
The per-type component stores written by `type.add(entity, value)` live in
`Component` statics in the source and are carried in the state here.
-/
structure World where
  _entities : List (Option Nat)
  _entityCemetery : List Nat
  _queryCache : List (Nat × List Nat)
  _dirtyQueries : List Nat
  stores : List (Nat × SparseSet)
  deriving Repr, DecidableEq

/-- Lookup in the per-type component store map (`Component` statics),
creating the store on first use. -/
def storesGetOrCreate (stores : List (Nat × SparseSet)) (t : Nat) : SparseSet :=
  ((stores.find? (fun p => p.1 == t)).map (fun p => p.2)).getD SparseSet.empty

/-- Store map update: existing keys are updated in place, new keys appended
in registration order. -/
def storesPut (stores : List (Nat × SparseSet)) (t : Nat) (s : SparseSet) :
    List (Nat × SparseSet) :=
  if (stores.find? (fun p => p.1 == t)).isSome then
    stores.map (fun p => if p.1 == t then (p.1, s) else p)
  else stores ++ [(t, s)]

/-- Lookup of a cached query result (`Map.get`). -/
def cacheFind (cache : List (Nat × List Nat)) (qid : Nat) : Option (List Nat) :=
  (cache.find? (fun p => p.1 == qid)).map (fun p => p.2)

/-- Cache update (`Map.set`): existing keys updated in place, new keys
appended in insertion order. -/
def cachePut (cache : List (Nat × List Nat)) (qid : Nat) (l : List Nat) :
    List (Nat × List Nat) :=
  if (cache.find? (fun p => p.1 == qid)).isSome then
    cache.map (fun p => if p.1 == qid then (p.1, l) else p)
  else cache ++ [(qid, l)]

/-- The `World` constructor: 1024 undefined entity slots, and the cemetery
array filled so that entity 0 is recycled first (the head of the list models
the last array element, the `pop` target). -/
def World.new : World :=
  { _entities := List.replicate 1024 none,
    _entityCemetery := List.range 1024,
    _queryCache := [], _dirtyQueries := [], stores := [] }

/-- Translation of `World.create()`: recycles the popped cemetery id (or the
entity array length) and installs a fresh empty signature (`new Bitset()`
has all-zero contents).  No cached query is marked dirty. -/
def World.create (w : World) : Nat × World :=
  let recycled := w._entityCemetery.headD w._entities.length
  (recycled, { w with _entityCemetery := w._entityCemetery.tail,
                      _entities := jsWrite w._entities recycled (some 0) })

/-- Translation of `World.add(entity, type, value)`: writes the value into
the type's store via `type.add`, then sets the type's bit in the entity's
signature when the entity is live.  Note that no cached query is marked
dirty anywhere in this method. -/
def World.add (w : World) (entity typeId value : Nat) : World :=
  let st := ((storesGetOrCreate w.stores typeId).add entity value).2
  let w1 := { w with stores := storesPut w.stores typeId st }
  match jsRead w1._entities entity with
  | none => w1
  | some signature =>
    { w1 with _entities := jsWrite w1._entities entity (some (signature ||| 2 ^ typeId)) }

/-- Translation of `World._ensureCache(query)`: a query seen for the first
time gets an empty cached list and is added to the dirty set. -/
def World._ensureCache (w : World) (qid : Nat) : World :=
  if (cacheFind w._queryCache qid).isSome then w
  else
    { w with _queryCache := cachePut w._queryCache qid [],
             _dirtyQueries :=
               if qid ∈ w._dirtyQueries then w._dirtyQueries
               else w._dirtyQueries ++ [qid] }

/-- Model of `new Set<number>(list)`: deduplication preserving first
occurrences. -/
def jsSetOfList (l : List Nat) : List Nat :=
  l.foldl (fun acc i => if i ∈ acc then acc else acc ++ [i]) []

/-- The loop body of `World._refreshQuery`: a dead entity index is deleted
from the set, a matching live entity added. -/
def refreshStep (env : Nat → QueryDefinition) (qid : Nat) (entities : List (Option Nat))
    (acc : List Nat) (i : Nat) : List Nat :=
  match jsRead entities i with
  | none => acc.filter (fun j => j ≠ i)
  | some signature =>
    if (env qid).satisfiedBy signature then
      (if i ∈ acc then acc else acc ++ [i])
    else acc

/-- Translation of `World._refreshQuery(query)`: starting from the old
cached list as a `Set`, every dead entity index is deleted and every
matching live entity added, then the result is stored and the query removed
from the dirty set. -/
def World._refreshQuery (env : Nat → QueryDefinition) (w : World) (qid : Nat) : World :=
  let w1 := w._ensureCache qid
  let entities := (cacheFind w1._queryCache qid).getD []
  let newSet := (List.range w1._entities.length).foldl
    (refreshStep env qid w1._entities) (jsSetOfList entities)
  { w1 with _queryCache := cachePut w1._queryCache qid newSet,
            _dirtyQueries := w1._dirtyQueries.filter (fun j => j ≠ qid) }

/-- Translation of `World._ensureFresh(query)`: refreshes when the query is
dirty. -/
def World._ensureFresh (env : Nat → QueryDefinition) (w : World) (qid : Nat) : World :=
  let w1 := w._ensureCache qid
  if qid ∈ w1._dirtyQueries then
    let w2 := w1._refreshQuery env qid
    { w2 with _dirtyQueries := w2._dirtyQueries.filter (fun j => j ≠ qid) }
  else w1

/-- The entity list a `World.run(query, ...)` call iterates over: the cached
list after `_ensureFresh`. -/
def World.runEntities (env : Nat → QueryDefinition) (w : World) (qid : Nat) :
    List Nat × World :=
  let w1 := w._ensureFresh env qid
  ((cacheFind w1._queryCache qid).getD [], w1)

/-- The set the cached list should equal per the spec: the live entities
whose signature satisfies the query. -/
def World.matchingEntities (w : World) (q : QueryDefinition) : List Nat :=
  (List.range w._entities.length).filter (fun i =>
    match jsRead w._entities i with
    | none => false
    | some signature => q.satisfiedBy signature)

/-- The C2 scenario query: built through the builder, requiring all of
component type 0. -/
def c2QueryDef : QueryDefinition :=
  ((QueryDefinition.new.withAll [0]).toOption).getD QueryDefinition.new

/-- Query environment for the C2 scenario: key 0 names `c2QueryDef`. -/
def c2Env : Nat → QueryDefinition := fun _ => c2QueryDef

/-- The C2 scenario state: a fresh world, one created entity (id 0), the
query run once (cache clean and empty), then component type 0 attached to
entity 0 through `World.add`. -/
def c2WorldAfterAdd : World :=
  ((World.runEntities c2Env (World.new.create).2 0).2).add 0 0 5

/-- The entity-signature array after the C2 create: slot 0 holds the empty
signature. -/
def c2Entities1 : List (Option Nat) := jsWrite (List.replicate 1024 none) 0 (some 0)

/-- The entity-signature array after the C2 add: slot 0 holds the signature
with bit 0 set. -/
def c2Entities2 : List (Option Nat) := jsWrite c2Entities1 0 (some (0 ||| 2 ^ 0))

/-- The C2 world right after `create()`. -/
def c2World1 : World :=
  { _entities := c2Entities1, _entityCemetery := (List.range 1024).tail,
    _queryCache := [], _dirtyQueries := [], stores := [] }

/-- The C2 world after `_ensureCache` has registered the query. -/
def c2World1c : World :=
  { c2World1 with _queryCache := [(0, [])], _dirtyQueries := [0] }

/-- The C2 world after the first query run: empty result cached, clean. -/
def c2World2 : World :=
  { c2World1 with _queryCache := [(0, [])], _dirtyQueries := [] }

/-- The C2 world after `World.add`: the signature changed, the store filled,
but the cache still clean and empty. -/
def c2World3 : World :=
  { c2World2 with _entities := c2Entities2, stores := [(0, (SparseSet.empty.add 0 5).2)] }

/-!
The `World` class of the earlier variant (the one with `addComponent`,
`removeComponent` and `remove`), here named `WorldP`.  The component
registry `Component._statics` is carried as an association list from
component-type id to its sparse-set store, in registration order; the query
cache maps are keyed like in `World`.  The head of `_cemetery` models the
last element of the JavaScript array, the `pop` target.
-/
structure WorldP where
  _entities : List (Option Nat)
  _cemetery : List Nat
  _statics : List (Nat × SparseSet)
  _queryCacheDirty : List (Nat × Bool)
  _queryCache : List (Nat × List Nat)
  deriving Repr, DecidableEq

/-- Model of the JavaScript comparison `x !== null` applied to the result of
`SparseSet.remove`, whose type is `T | undefined`: both an actual value and
`undefined` are strictly different from `null`, so the comparison always
holds.  This is the `result ||= component._instances.remove(index) !== null`
check of `Component.removeAll`. -/
def jsStrictNeNull (_v : Option Nat) : Bool := true

/-- Translation of `Component.removeAll(index)`: every registered store
removes the index, and the results are or-folded through the
`!== null` comparison. -/
def Component.removeAll (statics : List (Nat × SparseSet)) (index : Nat) :
    Bool × List (Nat × SparseSet) :=
  statics.foldl
    (fun acc p =>
      let r := p.2.remove index
      (acc.1 || jsStrictNeNull r.1, acc.2 ++ [(p.1, r.2)]))
    (false, [])

/-- Translation of `Component.bitsetFromComponents(...components)`:
a rented (cleared) bitset receives the type bit of every component
instance.  Components are given as (type id, value) pairs. -/
def bitsetFromComponents (components : List (Nat × Nat)) : Nat :=
  components.foldl (fun acc c => acc ||| 2 ^ c.1) 0

/-- Translation of `World.dirtyQueriesMatching(signature)`: every cached
query whose definition is satisfied by the signature gets its dirty flag set
to true. -/
def WorldP.dirtyQueriesMatching (env : Nat → QueryDefinition) (w : WorldP)
    (signature : Nat) : WorldP :=
  let newDirty := w._queryCacheDirty.map
    (fun p => if (env p.1).satisfiedBy signature then (p.1, true) else p)
  { w with _queryCacheDirty := newDirty }

/-- Translation of `World.create(...components)` of the earlier variant:
recycle an id off the cemetery (or use the next fresh one), write every
supplied component into its store (`Component.set`, which delegates to the
store's `add`), compute the batched signature, dirty the matching queries,
and store the signature. -/
def WorldP.create (env : Nat → QueryDefinition) (w : WorldP)
    (components : List (Nat × Nat)) : Nat × WorldP :=
  let entity := w._cemetery.headD w._entities.length
  let w1 := { w with _cemetery := w._cemetery.tail }
  let statics := components.foldl
    (fun st c => storesPut st c.1 ((storesGetOrCreate st c.1).add entity c.2).2) w1._statics
  let bitset := bitsetFromComponents components
  let w2 := WorldP.dirtyQueriesMatching env { w1 with _statics := statics } bitset
  (entity, { w2 with _entities := jsWrite w2._entities entity (some bitset) })

/-- Translation of `World.remove(entity)` of the earlier variant: dirty the
queries matching the entity's current signature (`?? Bitset.null`), bulk
remove its components, null the signature slot, and push the id onto the
cemetery — unconditionally, also when the entity is already dead. -/
def WorldP.remove (env : Nat → QueryDefinition) (w : WorldP) (entity : Nat) :
    Bool × WorldP :=
  let w1 := w.dirtyQueriesMatching env ((jsRead w._entities entity).getD 0)
  let r := Component.removeAll w1._statics entity
  (r.1, { w1 with _statics := r.2,
                  _entities := jsWrite w1._entities entity none,
                  _cemetery := entity :: w1._cemetery })

/-- Query environment for the C5 scenario: no queries are cached, the
environment is unused. -/
def c5Env : Nat → QueryDefinition := fun _ => QueryDefinition.new

/-- A fresh earlier-variant world in which one component type (id 0) has
been registered. -/
def c5WorldInitial : WorldP := ⟨[], [], [(0, SparseSet.empty)], [], []⟩

/-- The C5 scenario state: entity 0 created with a component of type 0 and
then removed once, so entity 0 is dead and the cemetery holds [0]. -/
def c5WorldDead : WorldP :=
  (((c5WorldInitial.create c5Env [(0, 5)]).2).remove c5Env 0).2

theorem popcountAux_congr : ∀ f g m, m ≤ f → m ≤ g → popcountAux f m = popcountAux g m := by
  intro f
  induction f with
  | zero =>
    intro g m hf _
    interval_cases m
    cases g <;> rfl
  | succ f ih =>
    intro g m hf hg
    match m, g with
    | 0, g => cases g <;> rfl
    | m + 1, g + 1 =>
      show (m + 1) % 2 + popcountAux f ((m + 1) / 2) =
        (m + 1) % 2 + popcountAux g ((m + 1) / 2)
      rw [ih g ((m + 1) / 2) (by omega) (by omega)]

theorem popcount_succ (n : Nat) :
    popcount (n + 1) = (n + 1) % 2 + popcount ((n + 1) / 2) := by
  show (n + 1) % 2 + popcountAux n ((n + 1) / 2) = (n + 1) % 2 + popcount ((n + 1) / 2)
  rw [popcountAux_congr n ((n + 1) / 2) ((n + 1) / 2) (by omega) (by omega)]
  rfl

theorem popcount_pos {n : Nat} (h : n ≠ 0) : 0 < popcount n := by
  induction n using Nat.strong_induction_on with
  | _ n ih =>
    match n, h with
    | n + 1, _ =>
      rw [popcount_succ]
      rcases Nat.eq_zero_or_pos ((n + 1) % 2) with hm | hm
      · have hd : (n + 1) / 2 ≠ 0 := by omega
        have := ih ((n + 1) / 2) (Nat.div_lt_self (Nat.succ_pos n) (by decide)) hd
        omega
      · omega

theorem popcount_eq_zero_iff (n : Nat) : popcount n = 0 ↔ n = 0 := by
  constructor
  · intro h
    by_contra hn
    exact absurd h (Nat.pos_iff_ne_zero.mp (popcount_pos hn))
  · rintro rfl
    rfl

/-- A natural number is nonzero exactly when some bit of it is set. -/
theorem ne_zero_iff_exists_testBit (n : Nat) : n ≠ 0 ↔ ∃ i, n.testBit i = true := by
  constructor
  · intro h
    by_contra hc
    push_neg at hc
    refine h (Nat.eq_of_testBit_eq fun i => ?_)
    simp [Nat.zero_testBit]
    simpa using hc i
  · rintro ⟨i, hi⟩ rfl
    simp [Nat.zero_testBit] at hi

/-- The bitwise and of two numbers is zero exactly when they share no set
bit. -/
theorem land_eq_zero_iff (a b : Nat) :
    a &&& b = 0 ↔ ¬∃ i, a.testBit i = true ∧ b.testBit i = true := by
  constructor
  · rintro h ⟨i, ha, hb⟩
    have := congrArg (fun n => Nat.testBit n i) h
    simp [Nat.testBit_land, ha, hb, Nat.zero_testBit] at this
  · intro h
    refine Nat.eq_of_testBit_eq fun i => ?_
    simp [Nat.testBit_land, Nat.zero_testBit]
    intro ha
    by_contra hb
    exact h ⟨i, ha, by simpa using hb⟩

/-- Absorption `a &&& b = a` characterises the subset relation on the sets
of set bits. -/
theorem land_eq_left_iff (a b : Nat) :
    a &&& b = a ↔ ∀ i, a.testBit i = true → b.testBit i = true := by
  constructor
  · intro h i ha
    have := congrArg (fun n => Nat.testBit n i) h
    simp [Nat.testBit_land, ha] at this
    exact this
  · intro h
    refine Nat.eq_of_testBit_eq fun i => ?_
    rw [Nat.testBit_land]
    cases ha : a.testBit i
    · simp
    · simp [h i ha]

theorem bitsetAndMany_pair (a b : Nat) : bitsetAndMany [a, b] = a &&& b := by
  show (a &&& a) &&& b = a &&& b
  have h : a &&& a = a := by simp
  rw [h]

/-- Claim C3: for every query definition and every signature bitset,
`satisfiedBy` evaluates as the spec describes: exact equality with the
only-filter when that is non-empty; otherwise false on a none-overlap; false
when the one-filter is non-empty and `one AND signature` does not have
exactly one set bit; false when the some-filter is non-empty and
`some AND signature` has zero set bits; otherwise whether the signature is a
superset of the all-filter. -/
theorem satisfiedBy_matches_spec (q : QueryDefinition) (s : Nat) :
    q.satisfiedBy s = true ↔ querySpecSatisfied q s := by
  unfold QueryDefinition.satisfiedBy querySpecSatisfied
  by_cases h0 : q._withOnly ≠ 0
  · rw [if_pos h0, if_pos h0]
    simp [bitsetEquals]
  · rw [if_neg h0, if_neg h0]
    by_cases hN : bitsetOverlaps q._withNone s = true
    · rw [if_pos hN]
      have hne : (q._withNone &&& s) ≠ 0 := by
        simpa [bitsetOverlaps] using hN
      have hshared : ∃ i, q._withNone.testBit i = true ∧ s.testBit i = true := by
        by_contra hc
        exact hne ((land_eq_zero_iff _ _).mpr hc)
      constructor
      · intro h
        cases h
      · rintro ⟨hA, _, _, _⟩
        exact absurd hshared hA
    · rw [if_neg hN]
      have hA : ¬∃ i, q._withNone.testBit i = true ∧ s.testBit i = true := by
        have hz : (q._withNone &&& s) = 0 := by
          by_contra hne
          exact hN (by simpa [bitsetOverlaps] using hne)
        exact (land_eq_zero_iff _ _).mp hz
      by_cases h1 : q._withOne ≠ 0 ∧ popcount (bitsetAndMany [q._withOne, s]) ≠ 1
      · rw [if_pos h1]
        constructor
        · intro h
          cases h
        · rintro ⟨_, hB, _, _⟩
          refine absurd (hB h1.1) ?_
          rw [← bitsetAndMany_pair]
          exact h1.2
      · rw [if_neg h1]
        by_cases h2 : q._withSome ≠ 0 ∧ popcount (bitsetAndMany [q._withSome, s]) = 0
        · rw [if_pos h2]
          constructor
          · intro h
            cases h
          · rintro ⟨_, _, hC, _⟩
            refine absurd ?_ (hC h2.1)
            rw [← bitsetAndMany_pair]
            exact h2.2
        · rw [if_neg h2]
          push_neg at h1 h2
          constructor
          · intro hsup
            refine ⟨hA, ?_, ?_, ?_⟩
            · intro hone
              have := h1 hone
              rwa [bitsetAndMany_pair] at this
            · intro hsome
              have := h2 hsome
              rwa [bitsetAndMany_pair] at this
            · have hland : q._withAll &&& s = q._withAll := by
                simpa [bitsetIsSupersetOf, bitsetIsSubsetOf, bitsetEquals,
                  bitsetAndMany_pair] using hsup
              exact (land_eq_left_iff _ _).mp hland
          · rintro ⟨_, _, _, hD⟩
            simpa [bitsetIsSupersetOf, bitsetIsSubsetOf, bitsetEquals,
              bitsetAndMany_pair] using (land_eq_left_iff _ _).mpr hD

/-- Claim C4 (refuted by the code): the spec requires that applying
`withOnly` after any non-only filter, or any non-only filter after
`withOnly`, signals an error at construction time.  The source guard of
`withSome` is missing entirely and the guard of `withOnly` only inspects the
all- and none-filters, so `withSome` after `withOnly` succeeds and
`withOnly` after `withOne` succeeds, with no error signalled. -/
theorem queryBuilder_missing_only_guards :
    (QueryDefinition.new.withOnly [0] |>.bind fun q => q.withSome [1]).isOk = true ∧
    (QueryDefinition.new.withOne [0] |>.bind fun q => q.withOnly [1]).isOk = true := by
  constructor <;> rfl

/-- Claim C1 (refuted by the code): the spec requires that after removing a
present index the removed index reports absent (`has` false, `get` absent)
while all other present indices keep their original values.  In the source,
`remove` never clears `sparse[index]` for the removed index, so after the
spec scenario the removed index 7 still reports present and `get(7)` returns
the value of the entry moved into its dense slot (index 1's value 10); the
surviving indices 3 and 1 do keep their values. -/
theorem sparseSet_remove_leaves_removed_index_present :
    sparseAfterSwapRemove.has 7 = true ∧
    sparseAfterSwapRemove.get 7 = some 10 ∧
    sparseAfterSwapRemove.get 3 = some 30 ∧
    sparseAfterSwapRemove.get 1 = some 10 := by
  refine ⟨rfl, rfl, rfl, rfl⟩

/-- Claim C7 counterexample: the claim says a second attach of the same
component type overwrites the stored value with the second value, so the
lookup after attaching 2 over 1 should give 2.  `Component.set` delegates to
`SparseSet.add`, which refuses present indices, so the lookup still gives
the first value 1. -/
theorem component_reattach_does_not_overwrite :
    ¬((Component.set storeWithFirstAttach 0 2).get 0 = some 2) := by
  intro h
  simp [Component.set, storeWithFirstAttach, SparseSet.add, SparseSet.get,
    SparseSet.empty, jsRead, jsWrite] at h

/-- Claim C7 (amended): attaching a component type already present on an
entity leaves the backing store completely unchanged — the dense array does
not grow and the lookup keeps returning the first value; the second value is
discarded rather than overwriting. -/
theorem component_reattach_is_noop (s : SparseSet) (i v : Nat) (h : s.has i = true) :
    Component.set s i v = s := by
  unfold Component.set SparseSet.add
  unfold SparseSet.has at h
  rw [if_pos h]

/-- Witness for `component_reattach_is_noop` at the store holding value 1 at
index 0. -/
theorem component_reattach_is_noop_witness :
    storeWithFirstAttach.has 0 = true ∧
    Component.set storeWithFirstAttach 0 2 = storeWithFirstAttach :=
  ⟨by decide, component_reattach_is_noop storeWithFirstAttach 0 2 (by decide)⟩

/-- Claim C10: for every sparse set and every index not currently present,
`set(index, value)` is a silent no-op that inserts nothing and leaves the
sparse and dense arrays completely unchanged. -/
theorem sparseSet_set_absent_is_noop (s : SparseSet) (i v : Nat) (h : s.has i = false) :
    s.set i v = s := by
  unfold SparseSet.set
  unfold SparseSet.has at h
  cases hj : jsRead s.sparse i with
  | none => rfl
  | some d =>
    rw [hj] at h
    cases h

/-- Witness for `sparseSet_set_absent_is_noop` on the empty sparse set. -/
theorem sparseSet_set_absent_is_noop_witness :
    SparseSet.empty.has 0 = false ∧ SparseSet.empty.set 0 5 = SparseSet.empty :=
  ⟨by decide, sparseSet_set_absent_is_noop SparseSet.empty 0 5 (by decide)⟩

set_option maxRecDepth 8192 in
/-- Claim C8 (refuted by the code): the spec requires `setFlagCount` to
always equal the number of bits currently set.  The counter delta
`(+value) - (-wasSet)` adds `wasSet` instead of subtracting it, so after
`set(0, true); set(0, false)` on a fresh bitset the counter is 2 while no
bit at all is set. -/
theorem bitset_counter_drifts_from_contents :
    bitsetSetThenClear.2.setFlagCount = 2 ∧
    Bitset.sliceBitCount bitsetSetThenClear.1 bitsetSetThenClear.2 = 0 :=
  ⟨rfl, rfl⟩

set_option maxRecDepth 8192 in
/-- Claim C9 (refuted by the code): the spec requires `get(index)` to return
false for every index beyond the bitset's capacity (32 flags).  With the
shared buffer, `get(32)` on the instance in slot 1 reads byte 8 — the first
byte of the neighbouring instance in slot 2 — and returns that instance's
bit 0, here true. -/
theorem bitset_get_reads_neighboring_instance :
    Bitset.get bitsetMemWithNeighbor ⟨1, 0⟩ 32 = true :=
  rfl

/-- Reading back the index just written: a `jsWrite` at `i` makes `a[i]`
return the written value, whether the write was in range or extended the
array. -/
theorem jsRead_jsWrite_self {α : Type} (l : List (Option α)) (i : Nat) (v : Option α) :
    jsRead (jsWrite l i v) i = v := by
  unfold jsRead jsWrite
  by_cases h : i < l.length
  · rw [if_pos h]
    simp [List.getD, h]
  · rw [if_neg h]
    have hlen : l.length ≤ i := Nat.le_of_not_lt h
    rw [List.append_assoc]
    simp only [List.getD, List.get?_eq_getElem?]
    rw [List.getElem?_append_right hlen]
    rw [List.getElem?_append_right (by simp)]
    simp

/-- Claim C5 (refuted by the code): the spec says removing an already-dead
entity is a tolerated no-op that returns a boolean indicating nothing
happened and leaves the free-list unchanged.  A second `World.remove(0)` on
the dead entity instead returns `true` (the `!== null` comparison in
`Component.removeAll` is against a store that signals absence with
`undefined`) and pushes the id onto the cemetery a second time, so the
free-list becomes [0, 0] and two later creates would hand out the same
id twice. -/
theorem world_double_remove_not_a_noop :
    (c5WorldDead.remove c5Env 0).1 = true ∧
    ((c5WorldDead.remove c5Env 0).2)._cemetery = [0, 0] :=
  ⟨rfl, rfl⟩

/-- Claim C6: in the earlier-variant world, destroying an entity and then
creating a new one with no components hands back the destroyed entity's id
(the cemetery is a LIFO stack) and installs a fresh empty signature, not the
old one. -/
theorem remove_then_create_recycles_id_with_empty_signature
    (env : Nat → QueryDefinition) (w : WorldP) (e : Nat) :
    (((w.remove env e).2).create env []).1 = e ∧
    jsRead ((((w.remove env e).2).create env []).2)._entities e = some 0 := by
  constructor
  · rfl
  · exact jsRead_jsWrite_self _ e (some 0)

/-- Reading any index of an all-holes array gives `undefined`. -/
theorem jsRead_replicate_none {α : Type} (n i : Nat) :
    jsRead (List.replicate n (none : Option α)) i = none := by
  unfold jsRead
  simp only [List.getD, List.get?_eq_getElem?, List.getElem?_replicate]
  split <;> rfl

/-- A write at one index does not change the read at a different index. -/
theorem jsRead_jsWrite_ne {α : Type} (l : List (Option α)) (i j : Nat) (v : Option α)
    (h : i ≠ j) : jsRead (jsWrite l j v) i = jsRead l i := by
  unfold jsRead jsWrite
  by_cases hj : j < l.length
  · rw [if_pos hj]
    simp [List.getD, List.getElem?_set_ne (Ne.symm h)]
  · rw [if_neg hj]
    simp only [List.getD, List.get?_eq_getElem?]
    by_cases hi : i < l.length
    · rw [List.append_assoc, List.getElem?_append_left hi]
    · have hi2 : l.length ≤ i := Nat.le_of_not_lt hi
      rw [List.getElem?_eq_none hi2, List.append_assoc, List.getElem?_append_right hi2]
      rcases Nat.lt_or_ge i j with hij | hij
      · rw [List.getElem?_append_left (by simp; omega)]
        simp only [List.getElem?_replicate]
        rw [if_pos (by omega)]
        rfl
      · have hij2 : j < i := by omega
        rw [List.getElem?_eq_none (by simp; omega)]

/-- An in-range write preserves the array length. -/
theorem jsWrite_length_of_lt {α : Type} (l : List (Option α)) (i : Nat) (v : Option α)
    (h : i < l.length) : (jsWrite l i v).length = l.length := by
  unfold jsWrite
  rw [if_pos h, List.length_set]

/-- A fold whose step function fixes the empty list stays empty. -/
theorem foldl_nil_of_forall {α β : Type} (g : List β → α → List β) (l : List α)
    (h : ∀ a ∈ l, g [] a = []) : l.foldl g [] = [] := by
  induction l with
  | nil => rfl
  | cons a t ih =>
    rw [List.foldl_cons, h a (List.mem_cons_self a t)]
    exact ih fun x hx => h x (List.mem_cons_of_mem a hx)

/-- Filtering an initial segment of the naturals by a predicate holding only
at 0 keeps exactly 0. -/
theorem range_filter_eq_single_zero (p : Nat → Bool) (n : Nat) (h0 : p 0 = true)
    (h : ∀ i, i ≠ 0 → p i = false) (hn : 0 < n) :
    (List.range n).filter p = [0] := by
  match n, hn with
  | m + 1, _ =>
    rw [List.range_succ_eq_map, List.filter_cons, if_pos h0]
    have : (List.map Nat.succ (List.range m)).filter p = [] := by
      rw [List.filter_eq_nil_iff]
      intro a ha
      rcases List.mem_map.mp ha with ⟨x, _, rfl⟩
      simp [h (Nat.succ x) (Nat.succ_ne_zero x)]
    rw [this]

/-- A `_refreshQuery` pass over a world none of whose live entities satisfy
the query, starting from an empty cached list, caches the empty list and
clears the dirty flag. -/
theorem refreshQuery_no_matches (env : Nat → QueryDefinition) (w : World) (qid : Nat)
    (hc : cacheFind w._queryCache qid = some [])
    (h : ∀ i s, jsRead w._entities i = some s → (env qid).satisfiedBy s = false) :
    World._refreshQuery env w qid =
      { w with _queryCache := cachePut w._queryCache qid [],
               _dirtyQueries := w._dirtyQueries.filter (fun j => j ≠ qid) } := by
  have hsome : (cacheFind w._queryCache qid).isSome = true := by rw [hc]; rfl
  have hfold : (List.range w._entities.length).foldl
      (refreshStep env qid w._entities) (jsSetOfList []) = [] := by
    show (List.range w._entities.length).foldl _ [] = []
    refine foldl_nil_of_forall _ _ fun i _ => ?_
    unfold refreshStep
    cases hj : jsRead w._entities i with
    | none => simp [hj]
    | some s => simp [hj, h i s hj]
  simp only [World._refreshQuery, World._ensureCache, hc, Option.isSome_some,
    Option.getD_some, eq_self_iff_true, if_true, hfold]

theorem c2_read_zero : jsRead c2Entities1 0 = some 0 :=
  jsRead_jsWrite_self _ _ _

theorem c2_read_ne (i : Nat) (hi : i ≠ 0) : jsRead c2Entities1 i = none := by
  show jsRead (jsWrite (List.replicate 1024 none) 0 (some 0)) i = none
  rw [jsRead_jsWrite_ne _ _ _ _ hi, jsRead_replicate_none]

theorem c2_read2_zero : jsRead c2Entities2 0 = some (0 ||| 2 ^ 0) :=
  jsRead_jsWrite_self _ _ _

theorem c2_read2_ne (i : Nat) (hi : i ≠ 0) : jsRead c2Entities2 i = none := by
  show jsRead (jsWrite c2Entities1 0 (some (0 ||| 2 ^ 0))) i = none
  rw [jsRead_jsWrite_ne _ _ _ _ hi]
  exact c2_read_ne i hi

theorem c2_refresh : World._refreshQuery c2Env c2World1c 0 = c2World2 := by
  rw [refreshQuery_no_matches c2Env c2World1c 0 rfl ?_]
  · rfl
  · intro i s hj
    rcases Nat.eq_zero_or_pos i with rfl | hi
    · have h0 : jsRead c2World1c._entities 0 = some 0 := c2_read_zero
      rw [h0] at hj
      cases hj
      rfl
    · have hn : jsRead c2World1c._entities i = none := c2_read_ne i (by omega)
      rw [hn] at hj
      cases hj

theorem c2_fresh : World._ensureFresh c2Env c2World1 0 = c2World2 := by
  simp only [World._ensureFresh]
  rw [show c2World1._ensureCache 0 = c2World1c from rfl]
  rw [if_pos (show (0 : Nat) ∈ c2World1c._dirtyQueries by decide)]
  rw [c2_refresh]
  rfl

theorem c2_run1 : (World.runEntities c2Env (World.new.create).2 0).2 = c2World2 := by
  simp only [World.runEntities]
  rw [show (World.new.create).2 = c2World1 from rfl, c2_fresh]

theorem c2_after_add : c2WorldAfterAdd = c2World3 := by
  unfold c2WorldAfterAdd
  rw [c2_run1]
  rfl

/-- Claim C2 (refuted by the code): the spec invariant says a cached query
whose dirty flag is false lists exactly the live entities whose signatures
satisfy it, and in particular the next run after a component addition must
reflect the change.  `World.add` in `world.ts` never marks any cached query
dirty, so after attaching type 0 to entity 0 the query for `all(type 0)` is
still considered clean, its next run returns the stale empty list, yet
entity 0 now matches. -/
theorem world_add_leaves_clean_cache_stale :
    c2WorldAfterAdd._dirtyQueries = [] ∧
    (World.runEntities c2Env c2WorldAfterAdd 0).1 = [] ∧
    c2WorldAfterAdd.matchingEntities c2QueryDef = [0] := by
  refine ⟨?_, ?_, ?_⟩
  · rw [c2_after_add]
    rfl
  · rw [c2_after_add]
    rfl
  · rw [c2_after_add]
    unfold World.matchingEntities
    have hlen : c2World3._entities.length = 1024 := by
      show c2Entities2.length = 1024
      unfold c2Entities2
      rw [jsWrite_length_of_lt]
      · show c2Entities1.length = 1024
        unfold c2Entities1
        rw [jsWrite_length_of_lt] <;> simp
      · show 0 < c2Entities1.length
        unfold c2Entities1
        rw [jsWrite_length_of_lt] <;> simp
    rw [hlen]
    refine range_filter_eq_single_zero _ 1024 ?_ ?_ (by decide)
    · show (match jsRead c2Entities2 0 with
        | none => false
        | some signature => c2QueryDef.satisfiedBy signature) = true
      rw [c2_read2_zero]
      rfl
    · intro i hi
      show (match jsRead c2Entities2 i with
        | none => false
        | some signature => c2QueryDef.satisfiedBy signature) = false
      rw [c2_read2_ne i hi]
